import Mathlib

/-!
Shallow embedding of the schema-inference and row-normalization core of
tap-google-sheets (files tap.py, streams.py, utils.py), together with
proofs settling the frozen claims about it.

Strings are modelled as Lean `String` (a structure over `List Char`);
machine-level concerns do not arise.  Python regular-expression character
classes are modelled exactly as the CPython `re` module applies them to
`str`: the class `\s` is the set `isPySpace` below (ASCII whitespace plus
the Unicode whitespace code points), `[A-Za-z]` and `[a-zA-Z0-9-_]` are the
literal ASCII classes they spell, and `\d` is the set of Unicode decimal
digits (`isPyDigit` below); the `$` anchor also matches just before one
newline at the end of the string.
-/

set_option autoImplicit false

namespace TapGoogleSheets

/-- The character class matched by the Python regex `\s` (and stripped by
`str.strip()`): ASCII whitespace and the Unicode whitespace code points. -/
def isPySpace (c : Char) : Bool :=
  c == ' ' || c == '\t' || c == '\n' || c == '\r' || c == '\x0b' || c == '\x0c' ||
  ('\x1c' ≤ c && c ≤ '\x1f') || c == '\x85' || c == '\xa0' || c == '\u1680' ||
  ('\u2000' ≤ c && c ≤ '\u200a') || c == '\u2028' || c == '\u2029' ||
  c == '\u202f' || c == '\u205f' || c == '\u3000'

/-- Python `str.strip()`: drop leading and trailing whitespace. -/
def pyStrip (l : List Char) : List Char :=
  (((l.dropWhile isPySpace).reverse.dropWhile isPySpace)).reverse

/-- Python `re.sub(r"\s+", "_", ·)`: replace every maximal whitespace run
by a single underscore.  The boolean records whether the previous input
character was whitespace (i.e. we are inside a run already replaced). -/
def collapseWsAux : Bool → List Char → List Char
  | _, [] => []
  | prevWs, c :: cs =>
    if isPySpace c then
      (if prevWs then collapseWsAux true cs else '_' :: collapseWsAux true cs)
    else c :: collapseWsAux false cs

/-- `re.sub(r"\s+", "_", s.strip())` on the underlying character list. -/
def normalizeChars (l : List Char) : List Char :=
  collapseWsAux false (pyStrip l)

/-- The FieldName normalization used at streams.py line 58 and
tap.py line 144: `re.sub(r"\s+", "_", s.strip())`. -/
def normalizeName (s : String) : String :=
  String.mk (normalizeChars s.toList)

theorem mem_collapseWsAux_not_space :
    ∀ (b : Bool) (l : List Char) (c : Char), c ∈ collapseWsAux b l → isPySpace c = false := by
  intro b l
  induction l generalizing b with
  | nil => intro c hc; simp [collapseWsAux] at hc
  | cons a as ih =>
    intro c hc
    cases ha : isPySpace a with
    | true =>
      cases b with
      | true =>
        simp [collapseWsAux, ha] at hc
        exact ih true c hc
      | false =>
        simp [collapseWsAux, ha] at hc
        rcases hc with h | h
        · subst h; decide
        · exact ih true c h
    | false =>
      simp [collapseWsAux, ha] at hc
      rcases hc with h | h
      · subst h; exact ha
      · exact ih false c h

theorem dropWhile_eq_self_of_not_space (l : List Char)
    (h : ∀ c ∈ l, isPySpace c = false) : l.dropWhile isPySpace = l := by
  cases l with
  | nil => rfl
  | cons a as =>
    have ha : isPySpace a = false := h a (List.mem_cons_self a as)
    simp [List.dropWhile, ha]

theorem pyStrip_eq_self_of_not_space (l : List Char)
    (h : ∀ c ∈ l, isPySpace c = false) : pyStrip l = l := by
  unfold pyStrip
  rw [dropWhile_eq_self_of_not_space l h]
  rw [dropWhile_eq_self_of_not_space l.reverse (by intro c hc; exact h c (List.mem_reverse.mp hc))]
  exact List.reverse_reverse l

theorem collapseWsAux_eq_self_of_not_space (l : List Char)
    (h : ∀ c ∈ l, isPySpace c = false) : ∀ b : Bool, collapseWsAux b l = l := by
  induction l with
  | nil => intro b; rfl
  | cons a as ih =>
    intro b
    have ha : isPySpace a = false := h a (List.mem_cons_self a as)
    simp only [collapseWsAux, ha, Bool.false_eq_true, if_false]
    exact congrArg (a :: ·) (ih (fun c hc => h c (List.mem_cons_of_mem a hc)) false)

theorem normalizeChars_not_space (l : List Char) :
    ∀ c ∈ normalizeChars l, isPySpace c = false := by
  intro c hc
  exact mem_collapseWsAux_not_space false (pyStrip l) c hc

theorem normalizeChars_idempotent (l : List Char) :
    normalizeChars (normalizeChars l) = normalizeChars l := by
  have h1 : pyStrip (normalizeChars l) = normalizeChars l :=
    pyStrip_eq_self_of_not_space _ (normalizeChars_not_space l)
  show collapseWsAux false (pyStrip (normalizeChars l)) = normalizeChars l
  rw [h1]
  exact collapseWsAux_eq_self_of_not_space _ (normalizeChars_not_space l) false

/-- Claim C8: FieldName normalization (trim surrounding whitespace, collapse
each internal whitespace run to a single underscore) is idempotent: for every
string s, normalizing normalize(s) yields normalize(s) again. -/
theorem claim_C8_fieldname_normalization_idempotent :
    ∀ s : String, normalizeName (normalizeName s) = normalizeName s := by
  intro s
  unfold normalizeName
  exact congrArg String.mk (normalizeChars_idempotent s.toList)

/-! ## Row normalization: GoogleSheetsStream.parse_response (streams.py 52-82)

The response body field `values` is a list of rows (lists of cell strings);
the first row is the header, the rest are data.  Selected columns
(`get_selected_columns`) arrive as a list of already-normalized names; only
membership in the resulting Python `set` matters, so a Lean list with
`contains` models it. -/

/-- Python truthiness of a string: non-empty. -/
def pyTruthy (s : String) : Bool := s != ""

/-- Python `v or ""` where `v` is an optional string (`None` from
`zip_longest` padding, otherwise a cell value). -/
def pyOrEmpty : Option String → String
  | none => ""
  | some v => if pyTruthy v then v else ""

/-- `set(selected_columns) if selected_columns else set(normalized_headings)`
(streams.py line 61): the effective selection. -/
def effectiveSelection (headings sel : List String) : List String :=
  if sel.isEmpty then headings.map normalizeName else sel

/-- The per-column condition of the mask (streams.py line 64):
`bool(x) and re.sub(r"\s+", "_", x.strip()) in selected_columns_set`. -/
def includedHeader (effSel : List String) (x : String) : Bool :=
  pyTruthy x && effSel.contains (normalizeName x)

/-- The mask list of streams.py line 64. -/
def headerMask (headings sel : List String) : List Bool :=
  headings.map (includedHeader (effectiveSelection headings sel))

/-- Python `itertools.zip_longest` on three lists, padding with `None`:
the tail once the first two lists are exhausted. -/
def zip3LongestC {α β γ : Type} (cs : List γ) : List (Option α × Option β × Option γ) :=
  cs.map (fun c => (none, none, some c))

/-- Python `itertools.zip_longest` on three lists, padding with `None`:
the tail once the first list is exhausted. -/
def zip3LongestBC {α β γ : Type} : List β → List γ → List (Option α × Option β × Option γ)
  | [], cs => zip3LongestC cs
  | b :: bs, cs => (none, some b, cs.head?) :: zip3LongestBC bs cs.tail

/-- Python `itertools.zip_longest` on three lists, padding with `None`. -/
def zip3Longest {α β γ : Type} : List α → List β → List γ → List (Option α × Option β × Option γ)
  | [], bs, cs => zip3LongestBC bs cs
  | a :: as, bs, cs => (some a, bs.head?, cs.head?) :: zip3Longest as bs.tail cs.tail

/-- One element of the comprehension at streams.py line 70:
`(re.sub(r"\s+", "_", h.strip()), v or "") for m, h, v in zip_longest(...) if m`.
A `None` mask entry (row longer than the header) is falsy and filtered out;
a true mask entry always comes with a present header cell, since the mask is
built as a map over the headers. -/
def keepPair : Option Bool × Option String × Option String → Option (String × String)
  | (some true, some h, v) => some (normalizeName h, pyOrEmpty v)
  | _ => none

/-- The list of (name, value) pairs fed to `dict(...)` for one raw row. -/
def rowPairs (mask : List Bool) (headings row : List String) : List (String × String) :=
  (zip3Longest mask headings row).filterMap keepPair

/-- Python `dict` update `d[k] = v`: overwrite in place if the key exists,
else append. -/
def pyDictInsert (d : List (String × String)) (k v : String) : List (String × String) :=
  if d.any (fun p => p.1 == k) then d.map (fun p => if p.1 == k then (p.1, v) else p)
  else d ++ [(k, v)]

/-- Python `dict(pairs)`: insertion-ordered keys, last value wins. -/
def pyDict (ps : List (String × String)) : List (String × String) :=
  ps.foldl (fun d p => pyDictInsert d p.1 p.2) []

/-- The output record built for one raw row (streams.py lines 67-72). -/
def parseRow (headings sel row : List String) : List (String × String) :=
  pyDict (rowPairs (headerMask headings sel) headings row)

/-- `parse_response` record construction (streams.py lines 52-72):
`headings, *data = response.json()["values"]` fails on an empty list,
otherwise every data row yields one record. -/
def parse_response (sel : List String) : List (List String) → Option (List (List (String × String)))
  | [] => none
  | headings :: data => some (data.map (fun values => parseRow headings sel values))

/-! ### The positional specification of the pairing (spec 4.5 steps 3-4) -/

/-- Modelled from the claim text: the pairs of one output record, column by
column: column i is included iff its header cell is non-empty and its
normalized name is in the effective selection; a missing trailing value is
the empty string. -/
def rowPairsSpec (effSel : List String) : List String → List String → List (String × String)
  | [], _ => []
  | h :: hs, vs =>
    if includedHeader effSel h then
      (normalizeName h, vs.headD "") :: rowPairsSpec effSel hs vs.tail
    else rowPairsSpec effSel hs vs.tail

theorem rowPairs_nil_nil {row : List String} :
    rowPairs [] [] row = [] := by
  induction row with
  | nil => rfl
  | cons v vs ih =>
    simp only [rowPairs, zip3Longest, zip3LongestBC, zip3LongestC, List.map_cons,
      List.filterMap_cons, keepPair] at ih ⊢
    exact ih

theorem pyOrEmpty_some (v : String) : pyOrEmpty (some v) = v := by
  unfold pyOrEmpty pyTruthy
  by_cases h : v = ""
  · simp [h]
  · simp [h]

theorem rowPairs_eq_spec (effSel : List String) :
    ∀ (headings row : List String),
      rowPairs (headings.map (includedHeader effSel)) headings row =
        rowPairsSpec effSel headings row := by
  intro headings
  induction headings with
  | nil => intro row; exact rowPairs_nil_nil
  | cons h hs ih =>
    intro row
    cases row with
    | nil =>
      cases hm : includedHeader effSel h with
      | true =>
        simp only [rowPairs, List.map_cons, zip3Longest, List.head?_cons, List.head?_nil,
          List.tail_cons, List.tail_nil, List.filterMap_cons, keepPair, hm,
          rowPairsSpec, if_pos rfl]
        rw [show pyOrEmpty none = "" from rfl]
        exact congrArg _ (ih [])
      | false =>
        simp only [rowPairs, List.map_cons, zip3Longest, List.head?_cons, List.head?_nil,
          List.tail_cons, List.tail_nil, List.filterMap_cons, keepPair, hm,
          rowPairsSpec]
        rw [if_neg (by simp)]
        exact ih []
    | cons v vs =>
      cases hm : includedHeader effSel h with
      | true =>
        simp only [rowPairs, List.map_cons, zip3Longest, List.head?_cons,
          List.tail_cons, List.filterMap_cons, keepPair, hm,
          rowPairsSpec, if_pos rfl, List.headD]
        rw [pyOrEmpty_some]
        exact congrArg _ (ih vs)
      | false =>
        simp only [rowPairs, List.map_cons, zip3Longest, List.head?_cons,
          List.tail_cons, List.filterMap_cons, keepPair, hm,
          rowPairsSpec]
        rw [if_neg (by simp)]
        exact ih vs

theorem parseRow_eq_spec (headings sel row : List String) :
    parseRow headings sel row =
      pyDict (rowPairsSpec (effectiveSelection headings sel) headings row) := by
  unfold parseRow headerMask
  rw [rowPairs_eq_spec]

theorem rowPairsSpec_take (effSel : List String) :
    ∀ (headings row : List String),
      rowPairsSpec effSel headings (row.take headings.length) =
        rowPairsSpec effSel headings row := by
  intro headings
  induction headings with
  | nil => intro row; rfl
  | cons h hs ih =>
    intro row
    cases row with
    | nil => rfl
    | cons v vs =>
      simp only [List.length_cons, List.take_succ_cons, rowPairsSpec, List.headD,
        List.tail_cons]
      cases includedHeader effSel h with
      | true => simp only [if_true]; exact congrArg _ (ih vs)
      | false => rw [if_neg (by simp), if_neg (by simp)]; exact ih vs

theorem rowPairsSpec_empty_row (effSel : List String) :
    ∀ headings : List String,
      rowPairsSpec effSel headings [] =
        (headings.filter (includedHeader effSel)).map (fun h => (normalizeName h, "")) := by
  intro headings
  induction headings with
  | nil => rfl
  | cons h hs ih =>
    simp only [rowPairsSpec, List.tail_nil, List.headD, List.filter_cons]
    cases includedHeader effSel h with
    | true => simp only [if_true, List.map_cons]; exact congrArg _ ih
    | false => rw [if_neg (by simp), if_neg (by simp)]; exact ih

/-- Claim C5: each output record of parse_response contains exactly the
columns whose header cell is non-empty and whose normalized header name is
in the effective selection (the given selection if non-empty, otherwise all
normalized header names), pairing header cells and row values positionally,
with a missing trailing cell value normalized to the empty string; with
headers ["A","B","C"] and row ["1","2"], the empty selection yields the
record A=1, B=2, C empty, and selection containing only "B" yields the
record with the single key B. -/
theorem claim_C5_selection_mask_and_positional_pairing :
    (∀ headings sel row : List String,
        parseRow headings sel row =
          pyDict (rowPairsSpec (effectiveSelection headings sel) headings row)) ∧
    parseRow ["A", "B", "C"] [] ["1", "2"] = [("A", "1"), ("B", "2"), ("C", "")] ∧
    parseRow ["A", "B", "C"] ["B"] ["1", "2"] = [("B", "2")] :=
  ⟨parseRow_eq_spec, by decide, by decide⟩

/-- Claim C9: for a raw row longer than the header row, parse_response
silently drops the extra trailing values: the output equals the output for
the row truncated to the header length, and no error is raised (the row
still yields exactly one record). -/
theorem claim_C9_long_rows_silently_truncated (headings sel row : List String)
    (_hlong : headings.length < row.length) :
    parseRow headings sel row = parseRow headings sel (row.take headings.length) ∧
    parse_response sel [headings, row] = some [parseRow headings sel row] := by
  constructor
  · rw [parseRow_eq_spec, parseRow_eq_spec, rowPairsSpec_take]
  · rfl

theorem claim_C9_witness :
    (["A"] : List String).length < (["1", "2"] : List String).length ∧
      (parseRow ["A"] [] ["1", "2"] =
          parseRow ["A"] [] (["1", "2"].take (["A"] : List String).length) ∧
        parse_response [] [["A"], ["1", "2"]] = some [parseRow ["A"] [] ["1", "2"]]) :=
  ⟨by decide, claim_C9_long_rows_silently_truncated ["A"] [] ["1", "2"] (by decide)⟩

/-- Claim C1 as stated is false on the code: an entirely empty raw row (the
empty list of cell values) does not yield an empty output mapping; the
zip_longest padding pairs every included column with None, so the record
maps every included column name to the empty string.  With header ["A"] and
empty selection the empty row yields the one-key record A="" rather than
the empty record. -/
theorem claim_C1_counterexample :
    parseRow ["A"] [] [] = [("A", "")] ∧
      parseRow ["A"] [] [] ≠ ([] : List (String × String)) := by
  constructor
  · decide
  · decide

/-- Claim C1 amended: for every header row and selection set, an entirely
empty raw row yields the record mapping each included column name to the
empty string (so an empty mapping only when no column is included), and the
row is not omitted: parse_response yields one output record per data row. -/
theorem claim_C1_amended_empty_row_keeps_included_columns :
    (∀ headings sel : List String,
        parseRow headings sel [] =
          pyDict (((headings.filter (includedHeader (effectiveSelection headings sel))).map
            (fun h => (normalizeName h, ""))))) ∧
    (∀ (sel headings : List String) (rows : List (List String)),
        parse_response sel (headings :: rows) = some (rows.map (parseRow headings sel))) := by
  constructor
  · intro headings sel
    rw [parseRow_eq_spec, rowPairsSpec_empty_row]
  · intro sel headings rows
    rfl

/-! ## Schema inference: TapGoogleSheets.get_schema (tap.py 137-146)

The schema built from the header row: one `th.Property(name, th.StringType)`
per truthy header cell, in header order.  Only string-typed properties are
ever declared, captured by the one-constructor `SchemaType`. -/

/-- The declared type of a schema property; the source only ever declares
`th.StringType`. -/
inductive SchemaType : Type
  | string
deriving DecidableEq, Repr

/-- The ordered property list built by get_schema (tap.py 141-146):
`for column in headings: if column: schema.append(Property(normalize(column), StringType))`. -/
def get_schema_fields (headings : List String) : List (String × SchemaType) :=
  headings.foldl
    (fun schema column =>
      if pyTruthy column then schema ++ [(normalizeName column, SchemaType.string)] else schema)
    []

/-- Modelled from the spec words for inferSchema: keep the non-empty header
cells, in order, each yielding one string-typed field named by the FieldName
normalization. -/
def inferSchemaSpec (headings : List String) : List (String × SchemaType) :=
  (headings.filter pyTruthy).map (fun column => (normalizeName column, SchemaType.string))

theorem get_schema_fields_foldl (acc : List (String × SchemaType)) :
    ∀ headings : List String,
      headings.foldl
        (fun schema column =>
          if pyTruthy column then schema ++ [(normalizeName column, SchemaType.string)] else schema)
        acc = acc ++ inferSchemaSpec headings := by
  intro headings
  induction headings generalizing acc with
  | nil => simp [inferSchemaSpec]
  | cons h hs ih =>
    simp only [List.foldl_cons, inferSchemaSpec, List.filter_cons]
    cases hp : pyTruthy h with
    | true =>
      simp only [if_true, ih, inferSchemaSpec, List.map_cons, List.append_assoc,
        List.singleton_append]
    | false =>
      rw [if_neg (by simp)]
      exact ih acc

theorem get_schema_fields_eq_spec (headings : List String) :
    get_schema_fields headings = inferSchemaSpec headings := by
  unfold get_schema_fields
  rw [get_schema_fields_foldl]
  exact List.nil_append _

/-- Claim C2 as stated is false on the code: get_schema skips a header cell
only when it is the empty string (Python truthiness), not when it is blank.
A whitespace-only cell such as "  " is truthy, is not skipped, and yields a
field whose normalized name is the empty string, where the claim demands no
field at all. -/
theorem claim_C2_counterexample :
    get_schema_fields ["  "] = [("", SchemaType.string)] ∧
      get_schema_fields ["  "] ≠ ([] : List (String × SchemaType)) := by
  constructor
  · decide
  · decide

/-- Claim C2 amended: get_schema skips exactly the empty header cells (a
whitespace-only cell is not skipped: it yields a field whose normalized name
is the empty string); every non-empty cell yields exactly one string-typed
field named by the FieldName normalization, with column order preserved; in
particular the header ["First Name", "  Last  Name", "", "Age"] yields
exactly the fields First_Name, Last_Name, Age in that order. -/
theorem claim_C2_amended_schema_skips_only_empty_cells :
    (∀ headings : List String, get_schema_fields headings = inferSchemaSpec headings) ∧
    get_schema_fields ["First Name", "  Last  Name", "", "Age"] =
      [("First_Name", SchemaType.string), ("Last_Name", SchemaType.string),
        ("Age", SchemaType.string)] :=
  ⟨get_schema_fields_eq_spec, by decide⟩

/-! ## Identifier resolution: get_parsed_sheet_id (utils.py 4-15) -/

/-- The character class `[a-zA-Z0-9-_]` of utils.py. -/
def isIdChar (c : Char) : Bool := c.isAlpha || c.isDigit || c == '-' || c == '_'

/-- `re.fullmatch(r"[a-zA-Z0-9-_]{40,50}", input)`: a bounded repetition of a
single character class fully matches the string exactly when every character
is in the class and the length is within the bounds. -/
def fullmatchSheetId (l : List Char) : Bool :=
  l.all isIdChar && decide (40 ≤ l.length) && decide (l.length ≤ 50)

/-- `re.search(r"/d/([a-zA-Z0-9-_]+)", input)`: scan left to right for the
literal `/d/` followed by at least one id character; the captured group is
the maximal (greedy) id-character run after the first such occurrence. -/
def searchDSlash : List Char → Option (List Char)
  | '/' :: 'd' :: '/' :: tl =>
    let run := tl.takeWhile isIdChar
    if run.isEmpty then searchDSlash ('d' :: '/' :: tl) else some run
  | _ :: rest => searchDSlash rest
  | [] => none

/-- utils.py get_parsed_sheet_id; the raised RuntimeError is the error case. -/
def get_parsed_sheet_id (input_string : String) : Except String String :=
  if fullmatchSheetId input_string.toList then .ok input_string
  else
    match searchDSlash input_string.toList with
    | some g => .ok (String.mk g)
    | none => .error ("Spreadsheet ID not found in the input: " ++ input_string ++ ".")

/-- Claim C4: get_parsed_sheet_id is a pure total function: an input fully
matching the canonical id shape is returned unchanged; otherwise the first
capture of the sharing-URL pattern is returned when present; otherwise it
fails, naming the offending input, and it fails exactly in that last case. -/
theorem claim_C4_sheet_id_resolution :
    (∀ s : String, fullmatchSheetId s.toList = true → get_parsed_sheet_id s = .ok s) ∧
    (∀ (s : String) (g : List Char), fullmatchSheetId s.toList = false →
        searchDSlash s.toList = some g → get_parsed_sheet_id s = .ok (String.mk g)) ∧
    (∀ s : String, fullmatchSheetId s.toList = false → searchDSlash s.toList = none →
        get_parsed_sheet_id s =
          .error ("Spreadsheet ID not found in the input: " ++ s ++ ".")) ∧
    (∀ s : String, (∃ m, get_parsed_sheet_id s = .error m) ↔
        (fullmatchSheetId s.toList = false ∧ searchDSlash s.toList = none)) := by
  refine ⟨?_, ?_, ?_, ?_⟩
  · intro s h
    have h' : fullmatchSheetId s.data = true := h
    simp [get_parsed_sheet_id, h']
  · intro s g h1 h2
    have h1' : fullmatchSheetId s.data = false := h1
    have h2' : searchDSlash s.data = some g := h2
    simp [get_parsed_sheet_id, h1', h2']
  · intro s h1 h2
    have h1' : fullmatchSheetId s.data = false := h1
    have h2' : searchDSlash s.data = none := h2
    simp [get_parsed_sheet_id, h1', h2']
  · intro s
    constructor
    · rintro ⟨m, hm⟩
      cases h1 : fullmatchSheetId s.toList with
      | true =>
        have h1' : fullmatchSheetId s.data = true := h1
        simp [get_parsed_sheet_id, h1'] at hm
      | false =>
        cases h2 : searchDSlash s.toList with
        | none => exact ⟨rfl, rfl⟩
        | some g =>
          have h1' : fullmatchSheetId s.data = false := h1
          have h2' : searchDSlash s.data = some g := h2
          simp [get_parsed_sheet_id, h1', h2'] at hm
    · rintro ⟨h1, h2⟩
      have h1' : fullmatchSheetId s.data = false := h1
      have h2' : searchDSlash s.data = none := h2
      exact ⟨"Spreadsheet ID not found in the input: " ++ s ++ ".",
        by simp [get_parsed_sheet_id, h1', h2']⟩

theorem claim_C4_witness :
    fullmatchSheetId ("https://docs.google.com/spreadsheets/d/abc-123_X/edit").toList = false ∧
      searchDSlash ("https://docs.google.com/spreadsheets/d/abc-123_X/edit").toList =
        some ['a', 'b', 'c', '-', '1', '2', '3', '_', 'X'] ∧
      get_parsed_sheet_id "https://docs.google.com/spreadsheets/d/abc-123_X/edit" =
        .ok (String.mk ['a', 'b', 'c', '-', '1', '2', '3', '_', 'X']) :=
  ⟨by decide, by decide,
    claim_C4_sheet_id_resolution.2.1 "https://docs.google.com/spreadsheets/d/abc-123_X/edit"
      ['a', 'b', 'c', '-', '1', '2', '3', '_', 'X'] (by decide) (by decide)⟩

/-! ## Range calculation: get_first_line_range (tap.py 154-183)

The eight anchored regexes of `a1_allowed_regexp` alternate the classes
`[A-Za-z]{1,3}` and `\d{1,7}` around a literal colon.  Two points of CPython
`re` semantics on `str` are modelled exactly: the class `\d` matches every
Unicode decimal digit (category Nd, the decade table below), and the anchor
`$` matches at the end of the string or just before one newline at the end
of the string — since no piece of any pattern can match a newline, a
pattern with `$` accepts a string exactly when its body matches the string
with one final newline removed.  Because consecutive pieces always draw
from disjoint character sets (ASCII letters, Nd digits, the colon, end of
string), greedy maximal-munch matching without backtracking is exactly
equivalent to the regexes: any shorter choice for a bounded class leaves a
character of that same class in front of the next piece, which can never
match it. -/

/-- First code point of every decade of Unicode decimal digits (category
Nd, Unicode 14.0 as shipped with CPython 3.11): each base b starts ten
consecutive digits b .. b+9 with values 0 .. 9. -/
def ndDigitStarts : List Nat := [
  0x30, 0x660, 0x6f0, 0x7c0, 0x966, 0x9e6, 0xa66, 0xae6, 0xb66, 0xbe6,
  0xc66, 0xce6, 0xd66, 0xde6, 0xe50, 0xed0, 0xf20, 0x1040, 0x1090, 0x17e0,
  0x1810, 0x1946, 0x19d0, 0x1a80, 0x1a90, 0x1b50, 0x1bb0, 0x1c40, 0x1c50,
  0xa620, 0xa8d0, 0xa900, 0xa9d0, 0xa9f0, 0xaa50, 0xabf0, 0xff10, 0x104a0,
  0x10d30, 0x11066, 0x110f0, 0x11136, 0x111d0, 0x112f0, 0x11450, 0x114d0,
  0x11650, 0x116c0, 0x11730, 0x118e0, 0x11950, 0x11c50, 0x11d50, 0x11da0,
  0x16a60, 0x16ac0, 0x16b50, 0x1d7ce, 0x1d7d8, 0x1d7e2, 0x1d7ec, 0x1d7f6,
  0x1e140, 0x1e2f0, 0x1e950, 0x1fbf0]

/-- The character class matched by the Python regex `\d` on `str`: any
Unicode decimal digit. -/
def isPyDigit (c : Char) : Bool :=
  ndDigitStarts.any (fun b => b ≤ c.toNat && c.toNat ≤ b + 9)

/-- The decimal value of a Unicode decimal digit, as used by Python
`int(...)` on a digit string. -/
def pyDigitVal (c : Char) : Nat :=
  match ndDigitStarts.find? (fun b => b ≤ c.toNat && c.toNat ≤ b + 9) with
  | some b => c.toNat - b
  | none => 0

/-- The effect of the `$` anchor under `re.match`: a pattern whose pieces
cannot match a newline accepts a string exactly when its body matches the
string with one final newline removed. -/
def stripFinalNewline (l : List Char) : List Char :=
  if l.getLast? == some '\n' then l.dropLast else l

/-- The four capture groups (start_column, start_row, end_column, end_row),
empty string for an empty capture, as produced by `match.groups("")`. -/
abbrev A1Groups : Type := String × String × String × String

/-- Consume `[A-Za-z]{1,3}` by maximal munch. -/
def grabLetters (s : List Char) : Option (List Char × List Char) :=
  let run := s.takeWhile Char.isAlpha
  if 1 ≤ run.length ∧ run.length ≤ 3 then some (run, s.dropWhile Char.isAlpha) else none

/-- Consume `\d{1,7}` by maximal munch. -/
def grabDigits (s : List Char) : Option (List Char × List Char) :=
  let run := s.takeWhile isPyDigit
  if 1 ≤ run.length ∧ run.length ≤ 7 then some (run, s.dropWhile isPyDigit) else none

/-- Consume the literal colon. -/
def grabColon : List Char → Option (List Char)
  | ':' :: rest => some rest
  | _ => none

/-- `^([A-Za-z]{1,3})(\d{1,7})()()$` — e.g. G8. -/
def matchCell (s : List Char) : Option A1Groups := do
  let (c, s) ← grabLetters s
  let (r, s) ← grabDigits s
  if s.isEmpty then pure (String.mk c, String.mk r, "", "") else none

/-- `^([A-Za-z]{1,3})():([A-Za-z]{1,3})()$` — e.g. C:G. -/
def matchColCol (s : List Char) : Option A1Groups := do
  let (c1, s) ← grabLetters s
  let s ← grabColon s
  let (c2, s) ← grabLetters s
  if s.isEmpty then pure (String.mk c1, "", String.mk c2, "") else none

/-- `^()(\d{1,7}):()(\d{1,7})$` — e.g. 1:5. -/
def matchRowRow (s : List Char) : Option A1Groups := do
  let (r1, s) ← grabDigits s
  let s ← grabColon s
  let (r2, s) ← grabDigits s
  if s.isEmpty then pure ("", String.mk r1, "", String.mk r2) else none

/-- `^([A-Za-z]{1,3})(\d{1,7}):()(\d{1,7})$` — e.g. C1:5. -/
def matchCellRow (s : List Char) : Option A1Groups := do
  let (c1, s) ← grabLetters s
  let (r1, s) ← grabDigits s
  let s ← grabColon s
  let (r2, s) ← grabDigits s
  if s.isEmpty then pure (String.mk c1, String.mk r1, "", String.mk r2) else none

/-- `^([A-Za-z]{1,3})(\d{1,7}):([A-Za-z]{1,3})()$` — e.g. A1:B. -/
def matchCellCol (s : List Char) : Option A1Groups := do
  let (c1, s) ← grabLetters s
  let (r1, s) ← grabDigits s
  let s ← grabColon s
  let (c2, s) ← grabLetters s
  if s.isEmpty then pure (String.mk c1, String.mk r1, String.mk c2, "") else none

/-- `^([A-Za-z]{1,3})(\d{1,7}):([A-Za-z]{1,3})(\d{1,7})$` — e.g. C4:G14. -/
def matchCellCell (s : List Char) : Option A1Groups := do
  let (c1, s) ← grabLetters s
  let (r1, s) ← grabDigits s
  let s ← grabColon s
  let (c2, s) ← grabLetters s
  let (r2, s) ← grabDigits s
  if s.isEmpty then pure (String.mk c1, String.mk r1, String.mk c2, String.mk r2) else none

/-- `^([A-Za-z]{1,3})():([A-Za-z]{1,3})(\d{1,7})$` — e.g. A:B5. -/
def matchColCell (s : List Char) : Option A1Groups := do
  let (c1, s) ← grabLetters s
  let s ← grabColon s
  let (c2, s) ← grabLetters s
  let (r2, s) ← grabDigits s
  if s.isEmpty then pure (String.mk c1, "", String.mk c2, String.mk r2) else none

/-- `^()(\d{1,7}):([A-Za-z]{1,3})(\d{1,7})$` — e.g. 2:B5. -/
def matchRowCell (s : List Char) : Option A1Groups := do
  let (r1, s) ← grabDigits s
  let s ← grabColon s
  let (c2, s) ← grabLetters s
  let (r2, s) ← grabDigits s
  if s.isEmpty then pure ("", String.mk r1, String.mk c2, String.mk r2) else none

/-- `next(match for match in range_matcher if match)` over `a1_allowed_regexp`
in its fixed order (tap.py 20-29, 164-167): first matching shape wins; the
`$` anchor lets every shape tolerate one final newline. -/
def matchA1 (s : String) : Option A1Groups :=
  let t := stripFinalNewline s.toList
  matchCell t <|> matchColCol t <|> matchRowRow t <|>
    matchCellRow t <|> matchCellCol t <|> matchCellCell t <|>
    matchColCell t <|> matchRowCell t

/-- Python `int(...)` on a non-empty string of Unicode decimal digits. -/
def digitsToNat (l : List Char) : Nat :=
  l.foldl (fun n c => n * 10 + pyDigitVal c) 0

/-- tap.py get_first_line_range: the raised ConfigValidationError is the
error case. -/
def get_first_line_range (sheet_range : Option String) : Except String String :=
  match sheet_range with
  | none => .ok "1:1"
  | some sheet_range =>
    match matchA1 sheet_range with
    | none => .error "Invalid A1 notation for range"
    | some (start_column, start_line, end_column, end_line) =>
      let line_number : String :=
        if pyTruthy start_line && pyTruthy end_line then
          toString (min (digitsToNat start_line.toList) (digitsToNat end_line.toList))
        else if pyTruthy start_line then start_line
        else if pyTruthy end_line then end_line
        else "1"
      let end_column2 :=
        if !pyTruthy end_column && !pyTruthy end_line then start_column else end_column
      .ok (start_column ++ line_number ++ ":" ++ end_column2 ++ line_number)

/-- Modelled from the claim text for firstLineRange: the returned string is
start_column ++ line ++ ":" ++ end_column ++ line, where line is the decimal
numeric minimum of start_row and end_row when both are present, else
whichever of the two is present, else "1", and end_column is replaced by
start_column exactly when neither end_column nor end_row was captured. -/
def firstLineRangeSpec : A1Groups → String
  | (start_column, start_row, end_column, end_row) =>
    let line : String :=
      if start_row ≠ "" ∧ end_row ≠ "" then
        toString (min (digitsToNat start_row.toList) (digitsToNat end_row.toList))
      else if start_row ≠ "" then start_row
      else if end_row ≠ "" then end_row
      else "1"
    let endCol := if end_column = "" ∧ end_row = "" then start_column else end_column
    start_column ++ line ++ ":" ++ endCol ++ line

/-- Claim C3: get_first_line_range returns "1:1" when the range expression
is absent; for every expression matching one of the eight A1 shapes it
returns the single-line range described by firstLineRangeSpec; and in
particular C4:G14 gives C4:G4, the single cell A5 gives A5:A5, and the row
span 1:5 gives 1:1. -/
theorem claim_C3_first_line_range :
    get_first_line_range none = .ok "1:1" ∧
    (∀ (s : String) (g : A1Groups), matchA1 s = some g →
        get_first_line_range (some s) = .ok (firstLineRangeSpec g)) ∧
    get_first_line_range (some "C4:G14") = .ok "C4:G4" ∧
    get_first_line_range (some "A5") = .ok "A5:A5" ∧
    get_first_line_range (some "1:5") = .ok "1:1" := by
  refine ⟨rfl, ?_, rfl, rfl, rfl⟩
  intro s g hm
  obtain ⟨sc, sl, ec, el⟩ := g
  simp only [get_first_line_range, hm, firstLineRangeSpec]
  by_cases h1 : sl = "" <;> by_cases h2 : el = "" <;> by_cases h3 : ec = "" <;>
    simp [pyTruthy, h1, h2, h3]

theorem claim_C3_witness :
    matchA1 "C4:G14" = some ("C", "4", "G", "14") ∧
      get_first_line_range (some "C4:G14") = .ok (firstLineRangeSpec ("C", "4", "G", "14")) :=
  ⟨by decide, claim_C3_first_line_range.2.1 "C4:G14" ("C", "4", "G", "14") (by decide)⟩

/-- Claim C6: for every non-null range expression matching none of the eight
A1 shapes, get_first_line_range fails with the ConfigValidationError, and it
fails only in that case; in particular "not a range" fails.  The final
conjuncts pin the fringe of the recognizer: a single trailing newline is
tolerated by the `$` anchor and a Unicode decimal digit is matched by `\d`,
so neither input errors. -/
theorem claim_C6_invalid_range_error :
    (∀ s : String, matchA1 s = none →
        get_first_line_range (some s) = .error "Invalid A1 notation for range") ∧
    (∀ s m : String, get_first_line_range (some s) = .error m → matchA1 s = none) ∧
    matchA1 "not a range" = none ∧
    matchA1 "A5\n" = some ("A", "5", "", "") ∧
    get_first_line_range (some "A5\n") = .ok "A5:A5" ∧
    matchA1 "A٥" = some ("A", "٥", "", "") ∧
    get_first_line_range (some "A٥") = .ok "A٥:A٥" := by
  refine ⟨?_, ?_, by decide, by decide, rfl, by decide, rfl⟩
  · intro s hm
    simp [get_first_line_range, hm]
  · intro s m h
    cases hm : matchA1 s with
    | none => rfl
    | some g =>
      obtain ⟨sc, sl, ec, el⟩ := g
      simp [get_first_line_range, hm] at h

theorem claim_C6_witness :
    matchA1 "not a range" = none ∧
      get_first_line_range (some "not a range") = .error "Invalid A1 notation for range" :=
  ⟨by decide, claim_C6_invalid_range_error.1 "not a range" (by decide)⟩

/-! ## Stream discovery: discover_streams (tap.py 94-135, 185-203)

The two HTTP fetches of an entry are abstracted by a per-entry environment:
the metadata response title (`response.json().get("title")`, None when the
key is absent) and the values-endpoint response body (its `values` rows and
its `range` string).  The code paths that can fail before or instead of a
fetch — identifier resolution and range validation — are kept concrete. -/

structure SheetEntry where
  sheet_id : String
  output_name : Option String
  child_sheet_name : Option String
  key_properties : List String
  range : Option String
deriving DecidableEq

structure SheetEnv where
  title : Option String
  values : List (List String)
  respRange : String
deriving DecidableEq

inductive DiscoverError : Type
  | resolution (msg : String)
  | configValidation (msg : String)
  | attributeError
  | valueError
deriving DecidableEq

structure DiscoveredStream where
  name : String
  schema : List (String × SchemaType)
  primary_keys : List String
  child_sheet_name : String
deriving DecidableEq

/-- Python str.replace(" ", "_") (tap.py line 101). -/
def replaceSpaceUnderscore (s : String) : String :=
  String.mk (s.toList.map (fun c => if c = ' ' then '_' else c))

/-- tap.py get_sheet_name: resolve the sheet id (this can raise), fetch the
file metadata, return `response.json().get("title")`. -/
def get_sheet_name (e : SheetEntry) (env : SheetEnv) : Except DiscoverError (Option String) :=
  match get_parsed_sheet_id e.sheet_id with
  | .error m => .error (.resolution m)
  | .ok _ => .ok env.title

/-- tap.py line 100 fall-through to the title, and line 101 `.replace`: a
None title raises AttributeError at the `.replace` call. -/
def deriveStreamNameFromTitle (e : SheetEntry) (env : SheetEnv) : Except DiscoverError String :=
  match get_sheet_name e env with
  | .error err => .error err
  | .ok none => .error .attributeError
  | .ok (some t) => .ok (replaceSpaceUnderscore t)

/-- tap.py lines 100-101: `stream_config.get("output_name") or
self.get_sheet_name(stream_config)`, then `.replace(" ", "_")`; the right
operand of `or` is only evaluated when output_name is falsy. -/
def deriveStreamName (e : SheetEntry) (env : SheetEnv) : Except DiscoverError String :=
  match e.output_name with
  | some s =>
    if pyTruthy s then .ok (replaceSpaceUnderscore s)
    else deriveStreamNameFromTitle e env
  | none => deriveStreamNameFromTitle e env

/-- tap.py get_first_visible_child_sheet_name:
`google_sheet_data.json()["range"].rsplit("!", 1)[0]`. -/
def get_first_visible_child_sheet_name (respRange : String) : String :=
  let r := respRange.toList.reverse
  if r.contains '!' then String.mk ((r.dropWhile (fun c => c != '!')).tail).reverse
  else respRange

/-- tap.py get_schema including the `headings, *data = ...` destructuring,
which raises ValueError on an empty values list. -/
def get_schema (values : List (List String)) : Except DiscoverError (List (String × SchemaType)) :=
  match values with
  | [] => .error .valueError
  | headings :: _ => .ok (get_schema_fields headings)

/-- tap.py get_sheet_data reduced to its failure structure: it resolves the
sheet id and computes the first-line range while building the request path,
then fetches; the response is the per-entry environment. -/
def get_sheet_data (e : SheetEntry) (env : SheetEnv) : Except DiscoverError SheetEnv :=
  match get_parsed_sheet_id e.sheet_id with
  | .error m => .error (.resolution m)
  | .ok _ =>
    match get_first_line_range e.range with
    | .error m => .error (.configValidation m)
    | .ok _ => .ok env

/-- One iteration of the discover_streams loop (tap.py 99-118): derive the
stream name, fetch header data, build the schema, resolve the child sheet,
then either emit one stream or skip the entry when the name is falsy. -/
def processEntry (e : SheetEntry) (env : SheetEnv) : Except DiscoverError (Option DiscoveredStream) :=
  match deriveStreamName e env with
  | .error err => .error err
  | .ok stream_name =>
    match get_sheet_data e env with
    | .error err => .error err
    | .ok data =>
      match get_schema data.values with
      | .error err => .error err
      | .ok stream_schema =>
        let child :=
          match e.child_sheet_name with
          | some c => if pyTruthy c then c else get_first_visible_child_sheet_name data.respRange
          | none => get_first_visible_child_sheet_name data.respRange
        if pyTruthy stream_name then
          .ok (some ⟨stream_name, stream_schema, e.key_properties, child⟩)
        else .ok none

/-- tap.py discover_streams: iterate the configured sheet entries in order,
appending one stream per non-skipped entry; an exception aborts the whole
discovery. -/
def discover_streams : List (SheetEntry × SheetEnv) → Except DiscoverError (List DiscoveredStream)
  | [] => .ok []
  | (e, env) :: rest =>
    match processEntry e env with
    | .error err => .error err
    | .ok none => discover_streams rest
    | .ok (some st) =>
      match discover_streams rest with
      | .error err => .error err
      | .ok sts => .ok (st :: sts)

/-! ### Success conditions and the emitted stream of one entry -/

def exceptOk {ε α : Type} : Except ε α → Bool
  | .ok _ => true
  | .error _ => false

/-- The hypotheses of claim C7 for one entry: the identifier resolves, the
range matches, the fetches succeeded (the environment is given), the name is
derivable, and the values body is non-empty so the header unpacking works. -/
def entryOk (p : SheetEntry × SheetEnv) : Prop :=
  exceptOk (deriveStreamName p.1 p.2) = true ∧
  exceptOk (get_parsed_sheet_id p.1.sheet_id) = true ∧
  exceptOk (get_first_line_range p.1.range) = true ∧
  p.2.values ≠ []

instance (p : SheetEntry × SheetEnv) : Decidable (entryOk p) := by
  unfold entryOk; infer_instance

/-- The stream name an entry derives (meaningful when derivation succeeds). -/
def entryName (p : SheetEntry × SheetEnv) : String :=
  match deriveStreamName p.1 p.2 with
  | .ok n => n
  | .error _ => ""

/-- The child sheet an entry reads. -/
def childName (p : SheetEntry × SheetEnv) : String :=
  match p.1.child_sheet_name with
  | some c => if pyTruthy c then c else get_first_visible_child_sheet_name p.2.respRange
  | none => get_first_visible_child_sheet_name p.2.respRange

/-- The stream a successful, non-skipped entry contributes. -/
def mkStream (p : SheetEntry × SheetEnv) : DiscoveredStream :=
  ⟨entryName p, get_schema_fields (p.2.values.headD []), p.1.key_properties, childName p⟩

theorem pyTruthy_eq_false_iff (s : String) : pyTruthy s = false ↔ s = "" := by
  unfold pyTruthy
  constructor
  · intro h
    by_contra hne
    simp [hne] at h
  · intro h; simp [h]

theorem processEntry_of_entryOk (e : SheetEntry) (env : SheetEnv)
    (h : entryOk (e, env)) :
    processEntry e env =
      .ok (if pyTruthy (entryName (e, env)) then some (mkStream (e, env)) else none) := by
  obtain ⟨h1, h2, h3, h4⟩ := h
  cases hd : deriveStreamName e env with
  | error err => rw [hd] at h1; simp [exceptOk] at h1
  | ok n =>
    have hdata : get_sheet_data e env = .ok env := by
      unfold get_sheet_data
      cases hr : get_parsed_sheet_id e.sheet_id with
      | error m => rw [hr] at h2; simp [exceptOk] at h2
      | ok i =>
        cases hg : get_first_line_range e.range with
        | error m => rw [hg] at h3; simp [exceptOk] at h3
        | ok r => rfl
    cases hv : env.values with
    | nil => exact absurd hv h4
    | cons headings tl =>
      have hname : entryName (e, env) = n := by unfold entryName; rw [hd]
      simp only [processEntry, hd, hdata, get_schema, hv, hname, mkStream, childName,
        List.headD_cons]
      cases hpt : pyTruthy n <;> simp [hpt]

theorem discover_streams_of_entryOk :
    ∀ l : List (SheetEntry × SheetEnv), (∀ p ∈ l, entryOk p) →
      discover_streams l =
        .ok (l.filterMap
          (fun p => if pyTruthy (entryName p) then some (mkStream p) else none)) := by
  intro l
  induction l with
  | nil => intro _; rfl
  | cons p rest ih =>
    intro hok
    obtain ⟨e, env⟩ := p
    have hp := processEntry_of_entryOk e env (hok _ (List.mem_cons_self _ _))
    have hr := ih (fun q hq => hok q (List.mem_cons_of_mem _ hq))
    cases hpt : pyTruthy (entryName (e, env)) with
    | true =>
      rw [hpt] at hp
      rw [if_pos rfl] at hp
      simp [discover_streams, hp, hr, List.filterMap_cons, hpt]
    | false =>
      rw [hpt] at hp
      rw [if_neg (by simp)] at hp
      simp [discover_streams, hp, hr, List.filterMap_cons, hpt]

theorem filterMap_eq_map_of_truthy_names :
    ∀ l : List (SheetEntry × SheetEnv), (∀ p ∈ l, entryName p ≠ "") →
      l.filterMap (fun p => if pyTruthy (entryName p) then some (mkStream p) else none) =
        l.map mkStream := by
  intro l
  induction l with
  | nil => intro _; rfl
  | cons p rest ih =>
    intro h
    have hp : pyTruthy (entryName p) = true := by
      simp [pyTruthy]
      exact h p (List.mem_cons_self _ _)
    simp only [List.filterMap_cons, hp, if_pos rfl, List.map_cons]
    exact congrArg _ (ih (fun q hq => h q (List.mem_cons_of_mem _ hq)))

/-! ### Concrete sheet entries for the discovery round trip -/

def entryA : SheetEntry := ⟨"/d/s1", some "Alpha One", none, ["id"], none⟩

def envA : SheetEnv := ⟨none, [["A", "B"]], "Sheet1!A1:B1"⟩

def entryB : SheetEntry := ⟨"/d/s3", some "Beta", some "Data", ["k"], some "A1:B2"⟩

def envB : SheetEnv := ⟨none, [["X", "", "Y"]], "Data!A1:B1"⟩

def entrySkip : SheetEntry := ⟨"/d/s2", none, none, [], none⟩

def envSkip : SheetEnv := ⟨some "", [["C"]], "Tab!1:1"⟩

/-- Claim C7: when every configured sheet entry resolves successfully,
discover_streams emits per entry, in configuration order, exactly the
stream of that entry when its derived name is truthy, and nothing for an
entry whose derived name is empty; with all names non-empty this is exactly
one stream per entry (two entries give exactly two streams), and a
configuration with an empty-named entry in the middle still produces the
streams of the other entries. -/
theorem claim_C7_discovery_per_entry :
    (∀ l : List (SheetEntry × SheetEnv), (∀ p ∈ l, entryOk p) →
        discover_streams l =
          .ok (l.filterMap
            (fun p => if pyTruthy (entryName p) then some (mkStream p) else none))) ∧
    (∀ l : List (SheetEntry × SheetEnv), (∀ p ∈ l, entryOk p) →
        (∀ p ∈ l, entryName p ≠ "") →
        discover_streams l = .ok (l.map mkStream)) ∧
    discover_streams [(entryA, envA), (entryB, envB)] =
      .ok [mkStream (entryA, envA), mkStream (entryB, envB)] ∧
    discover_streams [(entryA, envA), (entrySkip, envSkip), (entryB, envB)] =
      .ok [mkStream (entryA, envA), mkStream (entryB, envB)] := by
  refine ⟨discover_streams_of_entryOk, ?_, rfl, rfl⟩
  intro l hok hnames
  rw [discover_streams_of_entryOk l hok, filterMap_eq_map_of_truthy_names l hnames]

theorem claim_C7_witness :
    (∀ p ∈ [(entryA, envA), (entrySkip, envSkip), (entryB, envB)], entryOk p) ∧
      discover_streams [(entryA, envA), (entrySkip, envSkip), (entryB, envB)] =
        .ok ([(entryA, envA), (entrySkip, envSkip), (entryB, envB)].filterMap
          (fun p => if pyTruthy (entryName p) then some (mkStream p) else none)) :=
  ⟨by decide,
    claim_C7_discovery_per_entry.1 [(entryA, envA), (entrySkip, envSkip), (entryB, envB)]
      (by decide)⟩

/-! ### The missing-title failure (claim C10) -/

def entryNoTitle : SheetEntry := ⟨"/d/s0", none, none, [], none⟩

def envNoTitle : SheetEnv := ⟨none, [["A"]], "S!1:1"⟩

/-- Claim C10: for a sheet entry with no (or empty) output_name whose
metadata response has no title key, discover_streams raises the
AttributeError of `None.replace` before the empty-name check is reached,
instead of skipping the entry; and the skip branch is reachable only when
the derived name is the empty string. -/
theorem claim_C10_missing_title_raises_before_skip :
    (∀ (e : SheetEntry) (env : SheetEnv),
        (e.output_name = none ∨ e.output_name = some "") →
        exceptOk (get_parsed_sheet_id e.sheet_id) = true →
        env.title = none →
        processEntry e env = .error DiscoverError.attributeError ∧
        ∀ rest, discover_streams ((e, env) :: rest) = .error DiscoverError.attributeError) ∧
    (∀ (e : SheetEntry) (env : SheetEnv),
        processEntry e env = .ok none → deriveStreamName e env = .ok "") := by
  constructor
  · intro e env hname hres htitle
    have hft : deriveStreamNameFromTitle e env = .error DiscoverError.attributeError := by
      unfold deriveStreamNameFromTitle get_sheet_name
      cases hr : get_parsed_sheet_id e.sheet_id with
      | error m => rw [hr] at hres; simp [exceptOk] at hres
      | ok i => simp [htitle]
    have hd : deriveStreamName e env = .error DiscoverError.attributeError := by
      rcases hname with h | h <;> simp [deriveStreamName, h, hft, pyTruthy]
    have hpe : processEntry e env = .error DiscoverError.attributeError := by
      simp [processEntry, hd]
    exact ⟨hpe, fun rest => by simp [discover_streams, hpe]⟩
  · intro e env hok
    cases hd : deriveStreamName e env with
    | error err => simp [processEntry, hd] at hok
    | ok n =>
      cases hdata : get_sheet_data e env with
      | error err => simp [processEntry, hd, hdata] at hok
      | ok data =>
        cases hs : get_schema data.values with
        | error err => simp [processEntry, hd, hdata, hs] at hok
        | ok sch =>
          cases hpt : pyTruthy n with
          | true => simp [processEntry, hd, hdata, hs, hpt] at hok
          | false => rw [(pyTruthy_eq_false_iff n).mp hpt]

theorem claim_C10_witness :
    ((entryNoTitle.output_name = none ∨ entryNoTitle.output_name = some "") ∧
      exceptOk (get_parsed_sheet_id entryNoTitle.sheet_id) = true ∧
      envNoTitle.title = none) ∧
      processEntry entryNoTitle envNoTitle = .error DiscoverError.attributeError ∧
      discover_streams [(entryNoTitle, envNoTitle)] = .error DiscoverError.attributeError :=
  ⟨⟨Or.inl rfl, by decide, rfl⟩,
    (claim_C10_missing_title_raises_before_skip.1 entryNoTitle envNoTitle
      (Or.inl rfl) (by decide) rfl).1,
    (claim_C10_missing_title_raises_before_skip.1 entryNoTitle envNoTitle
      (Or.inl rfl) (by decide) rfl).2 []⟩

end TapGoogleSheets
